import Mathlib

/-!
Formal model of MCBS (`src/mcbs.js`), a Minecraft bot client: state store
(blocks, entities, players), inventory, physics and combat tick loops,
crafting, and the event handlers registered on the protocol client.
JavaScript numbers are modelled as `Rat` (block-type ids and counts as
`Nat`/`Int`); a JS `Map` is an association list with `set` replacing the
value in place and `delete` removing the key.  Transcendental functions
(`Math.sin`, `Math.cos`, `Math.atan2`, `Math.sqrt`) are kept abstract in a
`Trig` record since no verified property depends on their values; the
source's comparisons of `distanceTo` (a square root) against a constant
bound are rendered as the equivalent comparison of squares.
-/

namespace MCBS

/-- 3D vector with rational components (the source's float `vec3`). -/
structure Vec3 where
  x : Rat
  y : Rat
  z : Rat
deriving DecidableEq, Repr

/-- JS `Map.set`: replace the value in place when the key is present,
append otherwise. -/
def mapSet {κ α : Type} [DecidableEq κ] : List (κ × α) → κ → α → List (κ × α)
  | [], k, v => [(k, v)]
  | (k', v') :: t, k, v => if k' = k then (k, v) :: t else (k', v') :: mapSet t k v

/-- JS `Map.get` (as an `Option`). -/
def mapGet {κ α : Type} [DecidableEq κ] : List (κ × α) → κ → Option α
  | [], _ => none
  | (k', v') :: t, k => if k' = k then some v' else mapGet t k

/-- JS `Map.delete`. -/
def mapDelete {κ α : Type} [DecidableEq κ] (m : List (κ × α)) (k : κ) : List (κ × α) :=
  m.filter (fun p => decide (p.1 ≠ k))

/-- `class World`: the block store. -/
structure World where
  blocks : List (Vec3 × Nat)
deriving DecidableEq, Repr

/-- `World.setBlock`. -/
def World.setBlock (w : World) (position : Vec3) (blockType : Nat) : World :=
  { w with blocks := mapSet w.blocks position blockType }

/-- `World.getBlock`: `this.blocks.get(key) || 0` — a missing cell (and a
stored 0) reads as 0, the air id. -/
def World.getBlock (w : World) (position : Vec3) : Nat :=
  match mapGet w.blocks position with
  | some b => b
  | none => 0

/-- An inventory slot's item. -/
structure Item where
  name : String
  id : Nat
  count : Nat
deriving DecidableEq, Repr

/-- `class Inventory`: 46 slots and the selected hotbar slot. -/
structure Inventory where
  slots : List (Option Item)
  selectedSlot : Int
deriving DecidableEq, Repr

/-- The slot scan of `Inventory.findItem`, tracking the slot index. -/
def findItemAux (itemName : String) : List (Option Item) → Nat → Option (Item × Nat)
  | [], _ => none
  | none :: t, i => findItemAux itemName t (i + 1)
  | some it :: t, i =>
      if it.name = itemName then some (it, i) else findItemAux itemName t (i + 1)

/-- `Inventory.findItem`: first slot whose item matches.  The source also
compares `item.id === itemName`; a strict equality of a number with a
string argument is always false, so for the string argument modelled here
only the name comparison can succeed. -/
def Inventory.findItem (inv : Inventory) (itemName : String) : Option (Item × Nat) :=
  findItemAux itemName inv.slots 0

/-- The outbound commands the source writes to the protocol client. -/
inductive Command where
  | chatSend (message : String)
  | look (yaw pitch : Rat) (onGround : Bool)
  | useEntity (target : Int)
  | blockPlace (x y z : Rat) (face : Int)
  | blockDigStart (x y z : Int)
  | blockDigFinish (x y z : Int)
  | heldItemSlot (slot : Int)
  | windowClick (windowId : Int) (slot : Nat) (button : Nat) (action : Nat)
  | closeWindow (windowId : Int)
  | positionOut (x y z : Rat) (onGround : Bool)
deriving DecidableEq, Repr

/-- `Inventory.selectSlot`: outside 0..8 it throws (the state is untouched
and nothing is written); inside the range it records the slot and writes
exactly one `held_item_slot` command.  The `Option String` carries the
thrown error message, `none` on success. -/
def Inventory.selectSlot (inv : Inventory) (slot : Int) :
    Inventory × List Command × Option String :=
  if slot < 0 ∨ 8 < slot then
    (inv, [], some "Hotbar slots must be between 0 and 8")
  else
    ({ inv with selectedSlot := slot }, [Command.heldItemSlot slot], none)

/-- `mapSet` with the same key and value twice is the same as once. -/
theorem mapSet_idem {κ α : Type} [DecidableEq κ] (m : List (κ × α)) (k : κ) (v : α) :
    mapSet (mapSet m k v) k v = mapSet m k v := by
  induction m with
  | nil => simp [mapSet]
  | cons p t ih =>
    obtain ⟨k', v'⟩ := p
    by_cases hk : k' = k
    · simp [mapSet, hk]
    · simp [mapSet, hk, ih]

/-- Claim C9 (confirmed): applying the same block-change twice leaves the
block store in the same final state as applying it once — for every world,
position and block-type id, `setBlock pos b` is idempotent. -/
theorem setBlock_idempotent (w : World) (position : Vec3) (blockType : Nat) :
    (w.setBlock position blockType).setBlock position blockType
      = w.setBlock position blockType := by
  simp only [World.setBlock]
  rw [mapSet_idem]

/-- Claim C10 (confirmed): `selectSlot` accepts exactly the hotbar range
0..8 — outside it throws, writes no command and leaves `selectedSlot`
unchanged; inside it sets `selectedSlot` and writes exactly one
`held_item_slot` command. -/
theorem selectSlot_spec (inv : Inventory) (slot : Int) :
    (slot < 0 ∨ 8 < slot →
      inv.selectSlot slot = (inv, [], some "Hotbar slots must be between 0 and 8")) ∧
    (0 ≤ slot ∧ slot ≤ 8 →
      inv.selectSlot slot =
        ({ inv with selectedSlot := slot }, [Command.heldItemSlot slot], none)) := by
  constructor
  · intro h
    unfold Inventory.selectSlot
    rw [if_pos h]
  · intro h
    unfold Inventory.selectSlot
    rw [if_neg (by omega)]

/-- A sample inventory for evaluating `selectSlot` at both familes of slots. -/
def inv0 : Inventory :=
  { slots := List.replicate 46 none, selectedSlot := 0 }

/-- `selectSlot` evaluated at slot 9 (rejected, no command, state kept) and
at slot 3 (selected, one command). -/
theorem selectSlot_spec_witness :
    inv0.selectSlot 9 = (inv0, [], some "Hotbar slots must be between 0 and 8") ∧
    inv0.selectSlot 3 =
      ({ inv0 with selectedSlot := 3 }, [Command.heldItemSlot 3], none) :=
  ⟨(selectSlot_spec inv0 9).1 (by omega), (selectSlot_spec inv0 3).2 (by omega)⟩

/-- A tracked entity (`spawn_entity` record). -/
structure Entity where
  id : Int
  etype : String
  pos : Vec3
  velocity : Vec3
  yaw : Rat
  pitch : Rat
  metadata : Option (List Int) := none
deriving DecidableEq, Repr

/-- A tracked player (`spawn_player` record). -/
structure Player where
  id : Int
  uuid : String
  pname : String
  pos : Vec3
  yaw : Rat
  pitch : Rat
deriving DecidableEq, Repr

/-- The whole bot state: the `MinecraftBot` fields together with the state
of its subsystems (`Inventory`, `World`, `EntityTracker`, `Physics`,
`Combat`, `Crafting`).  `digListeners` is the list of `blockUpdate`
listeners registered by pending `mineBlock` calls, each holding its target
coordinate. -/
structure Bot where
  connected : Bool
  position : Vec3
  velocity : Vec3
  yaw : Rat
  pitch : Rat
  onGround : Bool
  health : Rat
  food : Rat
  foodSaturation : Rat
  inventory : Inventory
  world : World
  entities : List (Int × Entity)
  players : List (Int × Player)
  jumpCooldown : Int
  attackCooldown : Int
  combatTarget : Option Entity
  digListeners : List (Int × Int × Int)
  craftingTablePos : Option Vec3
deriving DecidableEq, Repr

/-- The state right after the constructors run: position and velocity zero,
health and food 20, 46 empty slots, empty world and trackers, both
cooldowns zero, no combat target, no pending dig. -/
def initBot : Bot where
  connected := false
  position := ⟨0, 0, 0⟩
  velocity := ⟨0, 0, 0⟩
  yaw := 0
  pitch := 0
  onGround := false
  health := 20
  food := 20
  foodSaturation := 0
  inventory := { slots := List.replicate 46 none, selectedSlot := 0 }
  world := { blocks := [] }
  entities := []
  players := []
  jumpCooldown := 0
  attackCooldown := 0
  combatTarget := none
  digListeners := []
  craftingTablePos := none

/-- An inbound `position` packet. -/
structure PositionPacket where
  x : Rat
  y : Rat
  z : Rat
  yaw : Rat
  pitch : Rat
  onGround : Bool
deriving DecidableEq, Repr

/-- The `position` packet handler: `this.position.set(packet.x, packet.y,
packet.z)` plus yaw, pitch and onGround taken from the packet. -/
def positionHandler (b : Bot) (p : PositionPacket) : Bot :=
  { b with position := ⟨p.x, p.y, p.z⟩, yaw := p.yaw, pitch := p.pitch,
           onGround := p.onGround }

/-- An inbound `health` packet. -/
structure HealthPacket where
  health : Rat
  food : Rat
  foodSaturation : Rat
deriving DecidableEq, Repr

/-- The events the bot emits to its own listeners. -/
inductive Signal where
  | healthSig (health food : Rat)
  | deathSig
  | positionSig (p : Vec3)
  | blockUpdateSig (x y z : Int) (blockType : Nat)
deriving DecidableEq, Repr

/-- The `health` packet handler: store health, food and saturation, emit
`health`, and emit `death` whenever the stored health is `<= 0` — the
source keeps no flag, so every zero-or-below packet emits again. -/
def healthHandler (b : Bot) (p : HealthPacket) : Bot × List Signal :=
  ({ b with health := p.health, food := p.food, foodSaturation := p.foodSaturation },
   Signal.healthSig p.health p.food ::
     (if p.health ≤ 0 then [Signal.deathSig] else []))

/-- Run the `health` handler over a packet sequence, collecting the emitted
signals in order. -/
def runHealth (b : Bot) : List HealthPacket → Bot × List Signal
  | [] => (b, [])
  | p :: ps =>
      ((runHealth (healthHandler b p).1 ps).1,
       (healthHandler b p).2 ++ (runHealth (healthHandler b p).1 ps).2)

/-- How many `death` signals a signal list holds. -/
def deathCount : List Signal → Nat
  | [] => 0
  | Signal.deathSig :: rest => deathCount rest + 1
  | _ :: rest => deathCount rest

/-- An inbound `block_change` packet: integer location and new block type. -/
structure BlockChange where
  x : Int
  y : Int
  z : Int
  blockType : Nat
deriving DecidableEq, Repr

/-- The packet's integer location as a world key. -/
def intVec (x y z : Int) : Vec3 := ⟨(x : Rat), (y : Rat), (z : Rat)⟩

/-- The `block_change` handler: update the world cell, then emit
`blockUpdate` — each pending dig listener whose target is exactly this
coordinate fires, removes itself and resolves its promise; the packet's
block type is never consulted by those listeners. -/
def blockChangeHandler (b : Bot) (e : BlockChange) : Bot :=
  { b with
    world := b.world.setBlock (intVec e.x e.y e.z) e.blockType,
    digListeners := b.digListeners.filter (fun l => decide (l ≠ (e.x, e.y, e.z))) }

/-- The synchronous part of `mineBlock x y z`: write the start-dig command
and register a `blockUpdate` listener for exactly `(x, y, z)`.  The source
performs no already-in-progress check and installs no deadline timer; the
delayed finish-dig write (after `getDigTime`, a constant 1000 ms) touches
no bot state and carries no completion logic. -/
def mineBlockIssue (b : Bot) (x y z : Int) : Bot × List Command :=
  ({ b with digListeners := b.digListeners ++ [(x, y, z)] },
   [Command.blockDigStart x y z])

/-- Fold the `block_change` handler over an event trace. -/
def runBlockChanges (b : Bot) (events : List BlockChange) : Bot :=
  events.foldl blockChangeHandler b

/-- How a pending action can end. -/
inductive DigOutcome where
  | Succeeded
  | TimedOut
  | Pending
deriving DecidableEq, Repr

/-- Outcome of a `mineBlock x y z` call over a finite trace of subsequent
`block_change` events: the promise resolves exactly when its listener has
fired (and removed itself).  The source has no timeout path at all, so
within any finite trace the action is either resolved or still pending —
it can never become `TimedOut`. -/
def digOutcome (b : Bot) (x y z : Int) (events : List BlockChange) : DigOutcome :=
  if (x, y, z) ∈ (runBlockChanges (mineBlockIssue b x y z).1 events).digListeners then
    DigOutcome.Pending
  else
    DigOutcome.Succeeded

/-- Claim C7 (confirmed): processing an inbound position event replaces the
locally predicted position entirely — afterwards position, yaw and pitch
equal the packet's values, whatever the prior (predicted) state was, and
two bots in different predicted states end at the same position. -/
theorem position_replaces_prediction (b : Bot) (p : PositionPacket) :
    (positionHandler b p).position = ⟨p.x, p.y, p.z⟩ ∧
    (positionHandler b p).yaw = p.yaw ∧
    (positionHandler b p).pitch = p.pitch ∧
    ∀ b2 : Bot, (positionHandler b2 p).position = (positionHandler b p).position :=
  ⟨rfl, rfl, rfl, fun _ => rfl⟩

/-- Projection of the `block_change` handler on the dig-listener list. -/
theorem blockChangeHandler_digListeners (b : Bot) (e : BlockChange) :
    (blockChangeHandler b e).digListeners =
      b.digListeners.filter (fun l => decide (l ≠ (e.x, e.y, e.z))) := rfl

/-- The `block_change` handler never adds dig listeners. -/
theorem blockChangeHandler_digListeners_subset (b : Bot) (e : BlockChange)
    (t : Int × Int × Int) (h : t ∈ (blockChangeHandler b e).digListeners) :
    t ∈ b.digListeners := by
  rw [blockChangeHandler_digListeners, List.mem_filter] at h
  exact h.1

/-- A resolved (absent) dig listener stays resolved over any further trace. -/
theorem runBlockChanges_not_mem (events : List BlockChange) :
    ∀ (b : Bot) (t : Int × Int × Int), t ∉ b.digListeners →
      t ∉ (runBlockChanges b events).digListeners := by
  induction events with
  | nil => intro b t h; simpa [runBlockChanges] using h
  | cons e es ih =>
    intro b t h
    simp only [runBlockChanges, List.foldl_cons]
    exact ih (blockChangeHandler b e) t
      (fun hm => h (blockChangeHandler_digListeners_subset b e t hm))

/-- A registered dig listener survives an event trace exactly when no event
of the trace hits its coordinate. -/
theorem runBlockChanges_mem_iff (events : List BlockChange) :
    ∀ (b : Bot) (t : Int × Int × Int), t ∈ b.digListeners →
      (t ∈ (runBlockChanges b events).digListeners ↔
        ∀ e ∈ events, (e.x, e.y, e.z) ≠ t) := by
  induction events with
  | nil => intro b t h; simp [runBlockChanges, h]
  | cons e es ih =>
    intro b t h
    simp only [runBlockChanges, List.foldl_cons]
    by_cases he : (e.x, e.y, e.z) = t
    · have h1 : t ∉ (blockChangeHandler b e).digListeners := by
        rw [blockChangeHandler_digListeners, List.mem_filter]
        rintro ⟨-, hd⟩
        rw [decide_eq_true_eq] at hd
        exact hd he.symm
      have h2 := runBlockChanges_not_mem es (blockChangeHandler b e) t h1
      constructor
      · intro hm; exact absurd hm h2
      · intro hall; exact absurd he (hall e (by simp))
    · have h1 : t ∈ (blockChangeHandler b e).digListeners := by
        rw [blockChangeHandler_digListeners, List.mem_filter]
        refine ⟨h, ?_⟩
        rw [decide_eq_true_eq]
        exact fun hteq => he hteq.symm
      rw [show es.foldl blockChangeHandler (blockChangeHandler b e)
            = runBlockChanges (blockChangeHandler b e) es from rfl]
      rw [ih (blockChangeHandler b e) t h1, List.forall_mem_cons]
      simp [he]

/-- Claim C1 (amended, proved): a Dig on `(x, y, z)` resolves successfully
over a trace exactly when some block-change event of the trace is at that
coordinate, whatever block type it reports; and since the source installs
no deadline, the outcome is never `TimedOut` (absent a matching event the
action stays pending). -/
theorem digOutcome_spec (b : Bot) (x y z : Int) (events : List BlockChange) :
    (digOutcome b x y z events = DigOutcome.Succeeded ↔
      ∃ e ∈ events, (e.x, e.y, e.z) = (x, y, z)) ∧
    digOutcome b x y z events ≠ DigOutcome.TimedOut := by
  have hmem : (x, y, z) ∈ (mineBlockIssue b x y z).1.digListeners := by
    simp [mineBlockIssue]
  have key := runBlockChanges_mem_iff events (mineBlockIssue b x y z).1 (x, y, z) hmem
  unfold digOutcome
  by_cases hin :
      (x, y, z) ∈ (runBlockChanges (mineBlockIssue b x y z).1 events).digListeners
  · rw [if_pos hin]
    refine ⟨?_, by decide⟩
    have hall := key.mp hin
    constructor
    · intro hcon; exact absurd hcon (by decide)
    · rintro ⟨e, he, heq⟩
      exact absurd heq (hall e he)
  · rw [if_neg hin]
    refine ⟨?_, by decide⟩
    constructor
    · intro _
      by_contra hno
      push_neg at hno
      exact hin (key.mpr fun e he => hno e he)
    · intro _; rfl

/-- Claim C1 counterexample: a block-change at the target coordinate whose
reported type is 5 (not air, which is 0) still resolves the dig as
Succeeded, and over an empty trace (no matching event at all) the dig is
left Pending — it never becomes TimedOut. -/
theorem dig_air_deadline_counterexample :
    digOutcome initBot 0 0 0 [{ x := 0, y := 0, z := 0, blockType := 5 }]
      = DigOutcome.Succeeded ∧
    (∀ e ∈ [({ x := 0, y := 0, z := 0, blockType := 5 } : BlockChange)],
      e.blockType ≠ 0) ∧
    digOutcome initBot 0 0 0 [] = DigOutcome.Pending := by
  decide

/-- A bot with a Dig already active at `(0, 0, 0)`. -/
def c2Bot : Bot := { initBot with digListeners := [(0, 0, 0)] }

/-- Claim C2 counterexample: with a Dig already active at `(0, 0, 0)`, a
second `mineBlock 0 0 0` does not fail with `AlreadyInProgress`: it writes
another start-dig command and registers a second listener alongside the
original one. -/
theorem dig_already_in_progress_counterexample :
    c2Bot.digListeners = [(0, 0, 0)] ∧
    (mineBlockIssue c2Bot 0 0 0).2 = [Command.blockDigStart 0 0 0] ∧
    (mineBlockIssue c2Bot 0 0 0).1.digListeners = [(0, 0, 0), (0, 0, 0)] := by
  decide

/-- Claim C2 (amended, proved): issuing Dig on a coordinate with an
already-active Dig does not fail — the source makes no in-progress check;
it writes another start-dig command and appends a second listener, keeping
the original one registered, and a single matching block-change event then
resolves (removes) both. -/
theorem dig_second_issue_proceeds (b : Bot) (x y z : Int)
    (_active : (x, y, z) ∈ b.digListeners) :
    (mineBlockIssue b x y z).2 = [Command.blockDigStart x y z] ∧
    (mineBlockIssue b x y z).1.digListeners = b.digListeners ++ [(x, y, z)] ∧
    (x, y, z) ∉ (runBlockChanges (mineBlockIssue b x y z).1
        [{ x := x, y := y, z := z, blockType := 0 }]).digListeners := by
  refine ⟨rfl, rfl, ?_⟩
  simp [runBlockChanges, blockChangeHandler_digListeners, List.mem_filter]

/-- `dig_second_issue_proceeds` evaluated at a bot with an active Dig at
`(0, 0, 0)`. -/
theorem dig_second_issue_proceeds_witness :
    (mineBlockIssue c2Bot 0 0 0).2 = [Command.blockDigStart 0 0 0] ∧
    (mineBlockIssue c2Bot 0 0 0).1.digListeners = c2Bot.digListeners ++ [(0, 0, 0)] ∧
    (0, 0, 0) ∉ (runBlockChanges (mineBlockIssue c2Bot 0 0 0).1
        [{ x := 0, y := 0, z := 0, blockType := 0 }]).digListeners :=
  dig_second_issue_proceeds c2Bot 0 0 0 (by decide)

/-- `deathCount` distributes over append. -/
theorem deathCount_append (l1 l2 : List Signal) :
    deathCount (l1 ++ l2) = deathCount l1 + deathCount l2 := by
  induction l1 with
  | nil => simp [deathCount]
  | cons s t ih =>
    cases s <;> simp [deathCount, ih]
    omega

/-- Claim C5 counterexample: two consecutive health packets with health 0
cause two `death` emissions, not one. -/
theorem death_signal_counterexample :
    deathCount (runHealth initBot
      [{ health := 0, food := 20, foodSaturation := 0 },
       { health := 0, food := 20, foodSaturation := 0 }]).2 = 2 := by
  decide

/-- Claim C5 (amended, proved): the health handler keeps no latch — every
health update with health `<= 0` emits a `death` signal, so a sequence of
packets emits exactly one `death` per zero-or-below packet. -/
theorem death_signal_per_packet (b : Bot) (ps : List HealthPacket) :
    deathCount (runHealth b ps).2 =
      (ps.filter (fun p => decide (p.health ≤ 0))).length := by
  induction ps generalizing b with
  | nil => simp [runHealth, deathCount]
  | cons p t ih =>
    simp only [runHealth, deathCount_append, List.filter_cons]
    by_cases hp : p.health ≤ 0
    · simp [healthHandler, hp, deathCount, deathCount_append, ih]
      omega
    · simp [healthHandler, hp, deathCount, deathCount_append, ih]

/-- The transcendental `Math` functions the source calls, kept abstract. -/
structure Trig where
  sinF : Rat → Rat
  cosF : Rat → Rat
  atan2F : Rat → Rat → Rat
  sqrtF : Rat → Rat

/-- A trivial interpretation of the abstract `Math` functions. -/
def trig0 : Trig :=
  { sinF := fun _ => 0, cosF := fun _ => 0, atan2F := fun _ _ => 0,
    sqrtF := fun _ => 0 }

/-- `Physics.gravity` (-0.08). -/
def gravity : Rat := -8/100

/-- `Physics.jumpSpeed` (0.42). -/
def jumpSpeed : Rat := 42/100

/-- `Physics._isOnGround`: the block 0.1 below the current position is not
air. -/
def isOnGround (b : Bot) : Bool :=
  decide (b.world.getBlock ⟨b.position.x, b.position.y - 1/10, b.position.z⟩ ≠ 0)

/-- Componentwise vector addition (`vec3.add`). -/
def vadd (a c : Vec3) : Vec3 := ⟨a.x + c.x, a.y + c.y, a.z + c.z⟩

/-- `Physics._update` (one 50 ms tick): nothing when disconnected;
otherwise apply gravity (or clamp a downward velocity to zero on the
ground), integrate position by velocity, decrement a positive jump
cooldown, and report the new position. -/
def physicsUpdate (b : Bot) : Bot × List Command :=
  if b.connected = false then (b, [])
  else
    let v :=
      if isOnGround b = false then { b.velocity with y := b.velocity.y + gravity }
      else if b.velocity.y < 0 then { b.velocity with y := 0 }
      else b.velocity
    let p := vadd b.position v
    let jc := if 0 < b.jumpCooldown then b.jumpCooldown - 1 else b.jumpCooldown
    let b1 := { b with velocity := v, position := p, jumpCooldown := jc }
    (b1, [Command.positionOut p.x p.y p.z (isOnGround b1)])

/-- `Physics.jump`: only on the ground with an expired cooldown — set the
upward velocity and a 10-tick cooldown. -/
def jumpStep (b : Bot) : Bot :=
  if isOnGround b = true ∧ b.jumpCooldown = 0 then
    { b with velocity := { b.velocity with y := jumpSpeed }, jumpCooldown := 10 }
  else b

/-- `Physics.move`: set the horizontal velocity from the direction and yaw. -/
def moveCtl (o : Trig) (b : Bot) (x z : Rat) (sprint : Bool) : Bot :=
  { b with velocity :=
      { b.velocity with
        x := (x * o.sinF b.yaw - z * o.cosF b.yaw) * (if sprint then 13/100 else 1/10),
        z := (z * o.sinF b.yaw + x * o.cosF b.yaw) * (if sprint then 13/100 else 1/10) } }

/-- `MinecraftBot.lookAt`: set yaw and pitch from the delta to the target
and write one `look` command. -/
def lookAt (o : Trig) (b : Bot) (tx ty tz : Rat) : Bot × List Command :=
  ({ b with
      yaw := o.atan2F (-(tx - b.position.x)) (-(tz - b.position.z)),
      pitch := o.atan2F (ty - b.position.y)
        (o.sqrtF ((tx - b.position.x) * (tx - b.position.x)
          + (tz - b.position.z) * (tz - b.position.z))) },
   [Command.look (o.atan2F (-(tx - b.position.x)) (-(tz - b.position.z)))
      (o.atan2F (ty - b.position.y)
        (o.sqrtF ((tx - b.position.x) * (tx - b.position.x)
          + (tz - b.position.z) * (tz - b.position.z))))
      b.onGround])

/-- Squared Euclidean distance; the source compares `distanceTo` (a square
root) against 3, equivalent to comparing this against 9. -/
def distSq (a c : Vec3) : Rat :=
  (a.x - c.x) * (a.x - c.x) + (a.y - c.y) * (a.y - c.y) + (a.z - c.z) * (a.z - c.z)

/-- `Combat._update` (one 50 ms tick): nothing when disconnected or
targetless; drop a target gone from the entity map; pursue (sprint towards
and look at) a target farther than 3; otherwise attack when the cooldown
is zero (resetting it to 10) and decrement the cooldown when not. -/
def combatUpdate (o : Trig) (b : Bot) : Bot × List Command :=
  if b.connected = false then (b, [])
  else
    match b.combatTarget with
    | none => (b, [])
    | some tgt =>
      match mapGet b.entities tgt.id with
      | none => ({ b with combatTarget := none }, [])
      | some e =>
        if 9 < distSq e.pos b.position then
          lookAt o (moveCtl o b 0 1 true) e.pos.x (e.pos.y + 1) e.pos.z
        else if b.attackCooldown = 0 then
          ({ b with attackCooldown := 10 }, [Command.useEntity tgt.id])
        else
          ({ b with attackCooldown := b.attackCooldown - 1 }, [])

/-- `Combat.attackEntity`: set the target, look at it, send one attack. -/
def attackEntityCmd (o : Trig) (b : Bot) (e : Entity) : Bot × List Command :=
  ((lookAt o { b with combatTarget := some e } e.pos.x (e.pos.y + 1) e.pos.z).1,
   (lookAt o { b with combatTarget := some e } e.pos.x (e.pos.y + 1) e.pos.z).2
     ++ [Command.useEntity e.id])

/-- `Combat.stop`. -/
def stopCombat (b : Bot) : Bot := { b with combatTarget := none }

/-- The client `connect` handler: `this.connected = true`. -/
def connectHandler (b : Bot) : Bot := { b with connected := true }

/-- The client `disconnect` handler: `this.connected = false`. -/
def disconnectHandler (b : Bot) : Bot := { b with connected := false }

/-- An inbound `spawn_entity` packet. -/
structure SpawnEntityPacket where
  entityId : Int
  etype : String
  x : Rat
  y : Rat
  z : Rat
  velocityX : Rat
  velocityY : Rat
  velocityZ : Rat
  yaw : Rat
  pitch : Rat
deriving DecidableEq, Repr

/-- The entity record a `spawn_entity` packet carries. -/
def spawnEntity (p : SpawnEntityPacket) : Entity :=
  { id := p.entityId, etype := p.etype, pos := ⟨p.x, p.y, p.z⟩,
    velocity := ⟨p.velocityX, p.velocityY, p.velocityZ⟩,
    yaw := p.yaw, pitch := p.pitch }

/-- The `spawn_entity` handler: store the entity record under its id. -/
def spawnEntityHandler (b : Bot) (p : SpawnEntityPacket) : Bot :=
  { b with entities := mapSet b.entities p.entityId (spawnEntity p) }

/-- One step of the agent's timeline: a clock tick (physics or combat), a
caller-issued command (jump, attack, stop, mine), or an inbound event
(connect, disconnect, position, health, block-change, entity-spawn). -/
inductive Step where
  | physicsTick
  | combatTick
  | jumpCmd
  | attackCmd (e : Entity)
  | stopCmd
  | connectEvt
  | disconnectEvt
  | positionEvt (p : PositionPacket)
  | healthEvt (p : HealthPacket)
  | blockEvt (e : BlockChange)
  | spawnEvt (p : SpawnEntityPacket)
  | mineCmd (x y z : Int)

/-- Apply one step to the bot state. -/
def applyStep (o : Trig) (b : Bot) : Step → Bot
  | Step.physicsTick => (physicsUpdate b).1
  | Step.combatTick => (combatUpdate o b).1
  | Step.jumpCmd => jumpStep b
  | Step.attackCmd e => (attackEntityCmd o b e).1
  | Step.stopCmd => stopCombat b
  | Step.connectEvt => connectHandler b
  | Step.disconnectEvt => disconnectHandler b
  | Step.positionEvt p => positionHandler b p
  | Step.healthEvt p => (healthHandler b p).1
  | Step.blockEvt e => blockChangeHandler b e
  | Step.spawnEvt p => spawnEntityHandler b p
  | Step.mineCmd x y z => (mineBlockIssue b x y z).1

/-- Run a sequence of steps from a state. -/
def runSteps (o : Trig) (b : Bot) (steps : List Step) : Bot :=
  steps.foldl (applyStep o) b

/-- Both cooldown counters are non-negative. -/
abbrev cooldownInv (b : Bot) : Prop :=
  0 ≤ b.jumpCooldown ∧ 0 ≤ b.attackCooldown

/-- The physics tick's jump cooldown: untouched when disconnected,
decremented at a positive value, kept at its floor otherwise. -/
theorem physicsUpdate_jumpCooldown (b : Bot) :
    (physicsUpdate b).1.jumpCooldown =
      if b.connected = false then b.jumpCooldown
      else if 0 < b.jumpCooldown then b.jumpCooldown - 1 else b.jumpCooldown := by
  unfold physicsUpdate
  by_cases h : b.connected = false
  · rw [if_pos h, if_pos h]
  · rw [if_neg h, if_neg h]

/-- The physics tick never touches the attack cooldown. -/
theorem physicsUpdate_attackCooldown (b : Bot) :
    (physicsUpdate b).1.attackCooldown = b.attackCooldown := by
  unfold physicsUpdate
  by_cases h : b.connected = false
  · rw [if_pos h]
  · rw [if_neg h]

/-- The combat tick never touches the jump cooldown. -/
theorem combatUpdate_jumpCooldown (o : Trig) (b : Bot) :
    (combatUpdate o b).1.jumpCooldown = b.jumpCooldown := by
  unfold combatUpdate
  split
  · rfl
  · split
    · rfl
    · split
      · rfl
      · split
        · rfl
        · split
          · rfl
          · rfl

/-- The combat tick keeps a non-negative attack cooldown non-negative. -/
theorem combatUpdate_attackCooldown_nonneg (o : Trig) (b : Bot)
    (ha : 0 ≤ b.attackCooldown) : 0 ≤ (combatUpdate o b).1.attackCooldown := by
  unfold combatUpdate
  split
  · exact ha
  · split
    · exact ha
    · split
      · exact ha
      · split
        · exact ha
        · split
          · show (0 : Int) ≤ 10
            omega
          · rename_i hz
            show 0 ≤ b.attackCooldown - 1
            omega

/-- `jump` leaves the jump cooldown non-negative (it sets 10 or keeps it). -/
theorem jumpStep_jumpCooldown_nonneg (b : Bot) (h : 0 ≤ b.jumpCooldown) :
    0 ≤ (jumpStep b).jumpCooldown := by
  unfold jumpStep
  split
  · show (0 : Int) ≤ 10
    omega
  · exact h

/-- `jump` never touches the attack cooldown. -/
theorem jumpStep_attackCooldown (b : Bot) :
    (jumpStep b).attackCooldown = b.attackCooldown := by
  unfold jumpStep
  split
  · rfl
  · rfl

/-- Every step preserves non-negativity of both cooldowns. -/
theorem applyStep_cooldownInv (o : Trig) (b : Bot) (s : Step)
    (h : cooldownInv b) : cooldownInv (applyStep o b s) := by
  obtain ⟨hj, ha⟩ := h
  cases s with
  | physicsTick =>
    refine ⟨?_, ?_⟩
    · rw [show applyStep o b Step.physicsTick = (physicsUpdate b).1 from rfl,
        physicsUpdate_jumpCooldown]
      split
      · exact hj
      · split <;> omega
    · rw [show applyStep o b Step.physicsTick = (physicsUpdate b).1 from rfl,
        physicsUpdate_attackCooldown]
      exact ha
  | combatTick =>
    refine ⟨?_, ?_⟩
    · rw [show applyStep o b Step.combatTick = (combatUpdate o b).1 from rfl,
        combatUpdate_jumpCooldown]
      exact hj
    · exact combatUpdate_attackCooldown_nonneg o b ha
  | jumpCmd =>
    refine ⟨jumpStep_jumpCooldown_nonneg b hj, ?_⟩
    rw [show applyStep o b Step.jumpCmd = jumpStep b from rfl, jumpStep_attackCooldown]
    exact ha
  | attackCmd e => exact ⟨hj, ha⟩
  | stopCmd => exact ⟨hj, ha⟩
  | connectEvt => exact ⟨hj, ha⟩
  | disconnectEvt => exact ⟨hj, ha⟩
  | positionEvt p => exact ⟨hj, ha⟩
  | healthEvt p => exact ⟨hj, ha⟩
  | blockEvt e => exact ⟨hj, ha⟩
  | spawnEvt p => exact ⟨hj, ha⟩
  | mineCmd x y z => exact ⟨hj, ha⟩

/-- The invariant holds along any run that starts in it. -/
theorem runSteps_cooldownInv (o : Trig) (steps : List Step) :
    ∀ b : Bot, cooldownInv b → cooldownInv (runSteps o b steps) := by
  induction steps with
  | nil => intro b h; simpa [runSteps] using h
  | cons s t ih =>
    intro b h
    simp only [runSteps, List.foldl_cons]
    exact ih (applyStep o b s) (applyStep_cooldownInv o b s h)

/-- Claim C3 (confirmed): over every sequence of physics ticks, combat
ticks, jump, attack, stop and mine commands, and inbound connect,
disconnect, position, health, block-change and entity-spawn events,
starting from the constructed initial state, neither the jump cooldown nor
the attack cooldown ever goes negative (every reachable state is
`runSteps` of some prefix; connect events make the cooldown-mutating tick
branches reachable, as `cooldown_decrement_reachable` exhibits). -/
theorem cooldowns_never_negative (o : Trig) (steps : List Step) :
    0 ≤ (runSteps o initBot steps).jumpCooldown ∧
    0 ≤ (runSteps o initBot steps).attackCooldown :=
  runSteps_cooldownInv o steps initBot (by constructor <;> decide)

/-- The zombie record the spawn packet below stores (and the caller hands
to `attackEntity`). -/
def ent7 : Entity :=
  { id := 7, etype := "zombie", pos := ⟨0, 0, 0⟩, velocity := ⟨0, 0, 0⟩,
    yaw := 0, pitch := 0 }

/-- A block directly below the landing position. -/
def groundBlock : BlockChange := { x := 0, y := -1, z := 0, blockType := 1 }

/-- A position correction landing the bot 0.1 above that block. -/
def posPkt : PositionPacket :=
  { x := 0, y := -9/10, z := 0, yaw := 0, pitch := 0, onGround := true }

/-- The spawn packet for `ent7`. -/
def sp7 : SpawnEntityPacket :=
  { entityId := 7, etype := "zombie", x := 0, y := 0, z := 0,
    velocityX := 0, velocityY := 0, velocityZ := 0, yaw := 0, pitch := 0 }

/-- Connect, land on a block, spawn a target, engage it, and tick: both
cooldowns are reset to 10 and then decremented. -/
def demoTrace : List Step :=
  [Step.connectEvt, Step.blockEvt groundBlock, Step.positionEvt posPkt,
   Step.spawnEvt sp7, Step.attackCmd ent7, Step.combatTick, Step.combatTick,
   Step.jumpCmd, Step.physicsTick]

/-- The invariant's scope is not vacuous: along `demoTrace` from the
initial state the bot is connected, the in-range combat tick resets the
attack cooldown to 10 and the next one decrements it to 9, and the jump
command resets the jump cooldown to 10 which the physics tick decrements
to 9. -/
theorem cooldown_decrement_reachable :
    (runSteps trig0 initBot demoTrace).connected = true ∧
    (runSteps trig0 initBot demoTrace).jumpCooldown = 9 ∧
    (runSteps trig0 initBot demoTrace).attackCooldown = 9 := by
  norm_num [runSteps, demoTrace, applyStep, connectHandler, blockChangeHandler,
    positionHandler, spawnEntityHandler, spawnEntity, attackEntityCmd, lookAt,
    combatUpdate, jumpStep, physicsUpdate, isOnGround, World.getBlock,
    World.setBlock, mapGet, mapSet, distSq, intVec, trig0, initBot, ent7, sp7,
    posPkt, groundBlock, moveCtl, gravity, jumpSpeed, vadd]

/-- A connected bot with no combat target and a positive attack cooldown. -/
def c4Bot : Bot := { initBot with connected := true, attackCooldown := 5 }

/-- Claim C4 counterexample: a combat tick on a connected bot with no
combat target leaves a positive attack cooldown unchanged (5 stays 5), so
a tick does not decrement every positive counter regardless of combat
target. -/
theorem tick_decrements_attack_counterexample :
    c4Bot.connected = true ∧ c4Bot.attackCooldown = 5 ∧
    (combatUpdate trig0 c4Bot).1.attackCooldown = 5 := by
  decide

/-- Claim C4 (amended, proved): while connected, each physics tick
decrements a positive jump cooldown (and leaves it at its floor
otherwise); the attack cooldown is decremented by a combat tick only when
a target is set, still present in the entity map, within squared distance
9 (range 3), and the cooldown is nonzero. -/
theorem tick_decrements_cooldowns (o : Trig) (b : Bot) (tgt e : Entity)
    (hc : b.connected = true)
    (ht : b.combatTarget = some tgt)
    (he : mapGet b.entities tgt.id = some e)
    (hd : distSq e.pos b.position ≤ 9)
    (ha : b.attackCooldown ≠ 0) :
    (physicsUpdate b).1.jumpCooldown =
      (if 0 < b.jumpCooldown then b.jumpCooldown - 1 else b.jumpCooldown) ∧
    (combatUpdate o b).1.attackCooldown = b.attackCooldown - 1 := by
  constructor
  · unfold physicsUpdate
    rw [if_neg (by simp [hc])]
  · unfold combatUpdate
    rw [if_neg (by simp [hc]), ht]
    simp only [he]
    rw [if_neg (by exact not_lt.mpr hd), if_neg ha]

/-- A nearby zombie entity for exercising the combat tick. -/
def zom : Entity :=
  { id := 7, etype := "zombie", pos := ⟨1, 0, 0⟩, velocity := ⟨0, 0, 0⟩,
    yaw := 0, pitch := 0 }

/-- A connected bot targeting `zom`, which is present and in range, with
both cooldowns positive. -/
def c4bBot : Bot :=
  { initBot with
    connected := true
    entities := [(7, zom)]
    combatTarget := some zom
    jumpCooldown := 3
    attackCooldown := 5 }

/-- `tick_decrements_cooldowns` evaluated on `c4bBot`: the jump cooldown
drops from 3 to 2 and the attack cooldown from 5 to 4. -/
theorem tick_decrements_cooldowns_witness :
    (physicsUpdate c4bBot).1.jumpCooldown =
      (if 0 < c4bBot.jumpCooldown then c4bBot.jumpCooldown - 1 else c4bBot.jumpCooldown) ∧
    (combatUpdate trig0 c4bBot).1.attackCooldown = c4bBot.attackCooldown - 1 :=
  tick_decrements_cooldowns trig0 c4bBot zom zom rfl rfl (by decide)
    (by norm_num [distSq, zom, c4bBot, initBot]) (by decide)

/-- One line of a recipe's ingredient list. -/
structure Ingredient where
  item : String
  count : Nat
deriving DecidableEq, Repr

/-- A crafting recipe. -/
structure Recipe where
  ingredients : List Ingredient
  result : Ingredient
  requiresCraftingTable : Bool
deriving DecidableEq, Repr

/-- The stick recipe of `Crafting._loadRecipes`. -/
def stickRecipe : Recipe :=
  { ingredients := [{ item := "planks", count := 2 }],
    result := { item := "stick", count := 4 },
    requiresCraftingTable := false }

/-- `Crafting._loadRecipes`: the recipe map as constructed (nothing else
ever writes to it). -/
def loadedRecipes : List (String × Recipe) := [("stick", stickRecipe)]

/-- The ingredient-availability loop of `Crafting.craft`: the first
ingredient that is absent or short of `ingredient.count * count`, if any
(the source throws on it). -/
def firstMissing (inv : Inventory) (count : Nat) : List Ingredient → Option String
  | [] => none
  | ing :: rest =>
      match inv.findItem ing.item with
      | none => some ing.item
      | some (it, _) =>
          if it.count < ing.count * count then some ing.item
          else firstMissing inv count rest

/-- The ingredient-placement loop of `Crafting.craft`: one window click per
ingredient at its found slot, with the loop index as the action id.  (The
availability check has already passed, so the lookup cannot miss; the
impossible branch emits nothing.) -/
def ingredientClicks (inv : Inventory) (windowId : Int) :
    List Ingredient → Nat → List Command
  | [], _ => []
  | ing :: rest, i =>
      (match inv.findItem ing.item with
       | none => []
       | some (_, slot) => [Command.windowClick windowId slot 0 i]) ++
      ingredientClicks inv windowId rest (i + 1)

/-- `Crafting.craft`: the returned pair is (commands written by this call,
thrown error).  The source throws on an unknown recipe, a required-but-
unset crafting table, or a missing ingredient, all before any
`client.write`; only after these checks does it open the table when
required (`block_place` on the stored position, awaiting the window —
movement via the external pathfinder is not modelled), click the
ingredients and the result, and close the table window. -/
def craft (b : Bot) (itemName : String) (count : Nat) :
    List Command × Option String :=
  match mapGet loadedRecipes itemName with
  | none => ([], some ("Unknown recipe: " ++ itemName))
  | some recipe =>
    if recipe.requiresCraftingTable = true ∧ b.craftingTablePos = none then
      ([], some "Crafting table required but not found")
    else
      match firstMissing b.inventory count recipe.ingredients with
      | some ingName => ([], some ("Missing ingredient: " ++ ingName))
      | none =>
          ((match b.craftingTablePos with
            | some p =>
                if recipe.requiresCraftingTable then [Command.blockPlace p.x p.y p.z 1]
                else []
            | none => []) ++
           ingredientClicks b.inventory (if recipe.requiresCraftingTable then 1 else 0)
             recipe.ingredients 0 ++
           [Command.windowClick (if recipe.requiresCraftingTable then 1 else 0) 0 0
             recipe.ingredients.length] ++
           (if recipe.requiresCraftingTable then [Command.closeWindow 1] else []),
           none)

/-- Claim C6 (confirmed): crafting "stick" when every planks stack (if
any) is short — in particular when planks are absent or at count zero —
fails synchronously with the missing-ingredient error and writes no
command at all: the returned command list is empty. -/
theorem craft_missing_planks (b : Bot) (count : Nat)
    (h : ∀ it sl, b.inventory.findItem "planks" = some (it, sl) →
      it.count < 2 * count) :
    craft b "stick" count = ([], some "Missing ingredient: planks") := by
  have hfm : firstMissing b.inventory count [{ item := "planks", count := 2 }]
      = some "planks" := by
    cases hfi : b.inventory.findItem "planks" with
    | none => simp [firstMissing, hfi]
    | some pr =>
      obtain ⟨it, sl⟩ := pr
      simp [firstMissing, hfi, h it sl hfi]
  simp [craft, loadedRecipes, mapGet, stickRecipe, hfm]

/-- `craft_missing_planks` evaluated at the freshly constructed bot, whose
46 slots are all empty: crafting one stick fails with the
missing-ingredient error and writes nothing. -/
theorem craft_missing_planks_witness :
    craft initBot "stick" 1 = ([], some "Missing ingredient: planks") :=
  craft_missing_planks initBot 1 (fun it sl hc => by
    have hn : initBot.inventory.findItem "planks" = none := by decide
    rw [hn] at hc
    exact Option.noConfusion hc)

/-- Deleting a key leaves no binding for it. -/
theorem mapGet_mapDelete_self {κ α : Type} [DecidableEq κ]
    (m : List (κ × α)) (k : κ) : mapGet (mapDelete m k) k = none := by
  induction m with
  | nil => rfl
  | cons p t ih =>
    by_cases hp : p.1 = k
    · simpa [mapDelete, List.filter_cons, hp] using ih
    · simpa [mapDelete, List.filter_cons, hp, mapGet] using ih

/-- Deleting any key preserves the absence of a key. -/
theorem mapGet_mapDelete_none {κ α : Type} [DecidableEq κ]
    (m : List (κ × α)) (k j : κ) (h : mapGet m k = none) :
    mapGet (mapDelete m j) k = none := by
  induction m with
  | nil => rfl
  | cons p t ih =>
    rw [mapGet] at h
    by_cases hp : p.1 = k
    · rw [if_pos hp] at h
      exact Option.noConfusion h
    · rw [if_neg hp] at h
      by_cases hj : p.1 = j
      · simpa [mapDelete, List.filter_cons, hj] using ih h
      · simpa [mapDelete, List.filter_cons, hj, mapGet, hp] using ih h

/-- The loop of the `entity_destroy` handler on one map: delete every id. -/
def deleteAll {κ α : Type} [DecidableEq κ] (m : List (κ × α)) (ks : List κ) :
    List (κ × α) :=
  ks.foldl mapDelete m

/-- A key absent from a map stays absent after deleting more keys. -/
theorem mapGet_deleteAll_none {κ α : Type} [DecidableEq κ] (ks : List κ) :
    ∀ (m : List (κ × α)) (k : κ), mapGet m k = none →
      mapGet (deleteAll m ks) k = none := by
  induction ks with
  | nil => intro m k h; exact h
  | cons j t ih =>
    intro m k h
    rw [show deleteAll m (j :: t) = deleteAll (mapDelete m j) t from rfl]
    exact ih (mapDelete m j) k (mapGet_mapDelete_none m k j h)

/-- After deleting a list of keys, none of them has a binding. -/
theorem mapGet_deleteAll_mem {κ α : Type} [DecidableEq κ] (ks : List κ) :
    ∀ (m : List (κ × α)) (k : κ), k ∈ ks → mapGet (deleteAll m ks) k = none := by
  induction ks with
  | nil => intro m k h; exact absurd h (List.not_mem_nil k)
  | cons j t ih =>
    intro m k h
    rw [show deleteAll m (j :: t) = deleteAll (mapDelete m j) t from rfl]
    rcases List.mem_cons.mp h with h1 | h2
    · subst h1
      exact mapGet_deleteAll_none t (mapDelete m k) k (mapGet_mapDelete_self m k)
    · exact ih (mapDelete m j) k h2

/-- Deletion only removes entries. -/
theorem mem_mapDelete {κ α : Type} [DecidableEq κ] (m : List (κ × α)) (j : κ)
    (p : κ × α) (h : p ∈ mapDelete m j) : p ∈ m :=
  List.mem_of_mem_filter h

/-- `deleteAll` only removes entries. -/
theorem mem_deleteAll {κ α : Type} [DecidableEq κ] (ks : List κ) :
    ∀ (m : List (κ × α)) (p : κ × α), p ∈ deleteAll m ks → p ∈ m := by
  induction ks with
  | nil => intro m p h; exact h
  | cons j t ih =>
    intro m p h
    rw [show deleteAll m (j :: t) = deleteAll (mapDelete m j) t from rfl] at h
    exact mem_mapDelete m j p (ih (mapDelete m j) p h)

/-- A map whose absent key appears under no entry. -/
theorem mapGet_none_not_key {κ α : Type} [DecidableEq κ] (m : List (κ × α))
    (k : κ) (h : mapGet m k = none) : ∀ p ∈ m, p.1 ≠ k := by
  induction m with
  | nil => intro p hp; exact absurd hp (List.not_mem_nil p)
  | cons q t ih =>
    rw [mapGet] at h
    by_cases hq : q.1 = k
    · rw [if_pos hq] at h
      exact Option.noConfusion h
    · rw [if_neg hq] at h
      intro p hp
      rcases List.mem_cons.mp hp with h1 | h2
      · rw [h1]; exact hq
      · exact ih h p h2

/-- The `entity_destroy` handler: each id of the packet is deleted from
both the entity map and the player map (the source loops over the ids
deleting from both per iteration; folding each map over the same id list
yields the same maps). -/
def entityDestroyHandler (b : Bot) (entityIds : List Int) : Bot :=
  { b with
    entities := deleteAll b.entities entityIds
    players := deleteAll b.players entityIds }

/-- `EntityTracker.updateMetadata`: replace the looked-up entity's metadata
in place; a miss changes nothing. -/
def updateMetadata (b : Bot) (entityId : Int) (metadata : List Int) : Bot :=
  match mapGet b.entities entityId with
  | none => b
  | some e =>
      { b with entities := mapSet b.entities entityId { e with metadata := some metadata } }

/-- The `distance < nearestDistance` bound of `findNearestEntity`, on
squared distances; `none` is the source's default `Infinity`. -/
def ltBound (d : Rat) : Option Rat → Bool
  | none => true
  | some m => decide (d < m)

/-- One iteration of the `findNearestEntity` scan. -/
def nearestStep (pos : Vec3) (types : List String)
    (acc : Option Entity × Option Rat) (p : Int × Entity) :
    Option Entity × Option Rat :=
  if types.contains p.2.etype then
    if ltBound (distSq p.2.pos pos) acc.2 then (some p.2, some (distSq p.2.pos pos))
    else acc
  else acc

/-- `EntityTracker.findNearestEntity` (with squared distances; the
source's `sqrt` comparisons are order-isomorphic). -/
def findNearestEntity (b : Bot) (types : List String) (maxDistSq : Option Rat) :
    Option Entity :=
  (b.entities.foldl (nearestStep b.position types) (none, maxDistSq)).1

/-- The scan only ever returns an entity taken from the list (or the
accumulator it started with). -/
theorem nearestFold_mem (pos : Vec3) (types : List String)
    (l : List (Int × Entity)) :
    ∀ (acc : Option Entity × Option Rat) (e : Entity),
      (l.foldl (nearestStep pos types) acc).1 = some e →
      acc.1 = some e ∨ ∃ p ∈ l, p.2 = e := by
  induction l with
  | nil => intro acc e h; exact Or.inl h
  | cons q t ih =>
    intro acc e h
    rw [List.foldl_cons] at h
    rcases ih (nearestStep pos types acc q) e h with h1 | h2
    · unfold nearestStep at h1
      by_cases hc : types.contains q.2.etype
      · rw [if_pos hc] at h1
        by_cases hlt : ltBound (distSq q.2.pos pos) acc.2 = true
        · rw [if_pos hlt] at h1
          right
          exact ⟨q, List.mem_cons_self q t, Option.some.inj h1⟩
        · rw [if_neg hlt] at h1
          exact Or.inl h1
      · rw [if_neg hc] at h1
        exact Or.inl h1
    · obtain ⟨p, hp, hpe⟩ := h2
      exact Or.inr ⟨p, List.mem_cons_of_mem q hp, hpe⟩

/-- A found nearest entity is a value of the entity map. -/
theorem findNearestEntity_mem (b : Bot) (types : List String)
    (maxDistSq : Option Rat) (e : Entity)
    (h : findNearestEntity b types maxDistSq = some e) :
    ∃ p ∈ b.entities, p.2 = e := by
  unfold findNearestEntity at h
  rcases nearestFold_mem b.position types b.entities (none, maxDistSq) e h with h1 | h2
  · exact Option.noConfusion h1
  · exact h2

/-- Every entry of the entity map is stored under its own id (the spawn
handlers store `packet.entityId` as both the key and the `id` field). -/
abbrev wellKeyed (m : List (Int × Entity)) : Prop :=
  ∀ p ∈ m, p.2.id = p.1

/-- Deleting ids preserves well-keyedness. -/
theorem wellKeyed_deleteAll (m : List (Int × Entity)) (ks : List Int)
    (h : wellKeyed m) : wellKeyed (deleteAll m ks) :=
  fun p hp => h p (mem_deleteAll ks m p hp)

/-- Claim C8 (confirmed): after an `entity_destroy` event carrying an id,
the id resolves in neither the entity map nor the player map, a later
metadata update for it changes nothing, and (for a well-keyed tracker)
`findNearestEntity` never returns an entity with the destroyed id. -/
theorem entity_destroy_no_stale (b : Bot) (entityIds : List Int) (entityId : Int)
    (metadata : List Int) (types : List String) (maxDistSq : Option Rat)
    (hmem : entityId ∈ entityIds) (hwk : wellKeyed b.entities) :
    mapGet (entityDestroyHandler b entityIds).entities entityId = none ∧
    mapGet (entityDestroyHandler b entityIds).players entityId = none ∧
    updateMetadata (entityDestroyHandler b entityIds) entityId metadata
      = entityDestroyHandler b entityIds ∧
    ∀ e : Entity,
      findNearestEntity (entityDestroyHandler b entityIds) types maxDistSq = some e →
      e.id ≠ entityId := by
  have h1 : mapGet (entityDestroyHandler b entityIds).entities entityId = none :=
    mapGet_deleteAll_mem entityIds b.entities entityId hmem
  have h2 : mapGet (entityDestroyHandler b entityIds).players entityId = none :=
    mapGet_deleteAll_mem entityIds b.players entityId hmem
  refine ⟨h1, h2, ?_, ?_⟩
  · unfold updateMetadata
    rw [h1]
  · intro e he
    obtain ⟨p, hp, hpe⟩ := findNearestEntity_mem _ types maxDistSq e he
    have hkey : p.1 ≠ entityId :=
      mapGet_none_not_key _ entityId h1 p hp
    have hid : p.2.id = p.1 :=
      wellKeyed_deleteAll b.entities entityIds hwk p hp
    rw [← hpe, hid]
    exact hkey

/-- A player record sharing id 7 with `zom`. -/
def pl7 : Player :=
  { id := 7, uuid := "u-7", pname := "steve", pos := ⟨1, 0, 0⟩, yaw := 0, pitch := 0 }

/-- A tracker holding entity 7 and player 7. -/
def c8Bot : Bot :=
  { initBot with
    entities := [(7, zom)]
    players := [(7, pl7)] }

/-- `entity_destroy_no_stale` evaluated on a tracker holding entity 7 and
player 7, destroyed by a packet carrying id 7. -/
theorem entity_destroy_no_stale_witness :
    mapGet (entityDestroyHandler c8Bot [7]).entities 7 = none ∧
    mapGet (entityDestroyHandler c8Bot [7]).players 7 = none ∧
    updateMetadata (entityDestroyHandler c8Bot [7]) 7 [1, 2]
      = entityDestroyHandler c8Bot [7] ∧
    ∀ e : Entity,
      findNearestEntity (entityDestroyHandler c8Bot [7]) ["zombie"] none = some e →
      e.id ≠ 7 :=
  entity_destroy_no_stale c8Bot [7] 7 [1, 2] ["zombie"] none (by decide) (by decide)

end MCBS
